import Mathlib

/-!
Verification development for the config-driven incident form renderer
(src/src/formRenderer.js).

The JavaScript source is shallowly embedded below: DOM elements built by the
renderer are modelled as plain Lean structures, the mutable page state is
threaded explicitly, and the platform pieces the code relies on (form-data
collection, the input element's type-attribute resolution, JSON structure)
are modelled at the level the source observes them.  Machine integers in the
configuration (`order`, `rows`) are modelled as `Int`/`Nat`; the source never
performs arithmetic that can overflow.
-/

namespace FormRenderer

/-- The `permissions` object of a field specification: `{roles: [...]}` with
the `roles` array possibly absent. -/
structure Permissions where
  roles : Option (List String) := none
deriving Repr, DecidableEq

/-- The `visibleIf` object of a field specification: `{field, equals}`. -/
structure VisibleIf where
  field : String
  equals : String
deriving Repr, DecidableEq

/-- A field specification, as consumed by `createField`. -/
structure FieldSpec where
  id : String
  label : String := ""
  type : Option String := none
  required : Bool := false
  placeholder : Option String := none
  helpText : Option String := none
  options : Option (List String) := none
  rows : Option Nat := none
  permissions : Option Permissions := none
  visibleIf : Option VisibleIf := none
deriving Repr, DecidableEq

/-- A section of the configuration. -/
structure Section where
  label : String
  order : Option Int := none
  helpText : Option String := none
  fields : Option (List FieldSpec) := none
deriving Repr, DecidableEq

/-- The `layout` object of the configuration. -/
structure Layout where
  showSectionNumbers : Bool
deriving Repr, DecidableEq

/-- A per-language override record inside `languages`. -/
structure LangData where
  title : Option String := none
deriving Repr, DecidableEq

/-- The top-level form configuration. -/
structure FormConfig where
  title : String
  description : String := ""
  languages : Option (List (String × LangData)) := none
  layout : Option Layout := none
  sections : List Section
deriving Repr, DecidableEq

/-- The kind of interactive control `createField` builds: the
`textarea`/`select` branches of its switch, or an `input` element whose
`type` attribute is recorded verbatim. -/
inductive ControlKind where
  | input (typeAttr : String)
  | textarea (rowsAttr : Option Nat)
  | select (options : List String)
deriving Repr, DecidableEq

/-- An interactive control as built by `createField`: `id`/`name` are both set
to the field id, and `value` is the control's live value (initially the
platform default). -/
structure Control where
  id : String
  name : String
  kind : ControlKind
  required : Bool
  placeholder : Option String
  value : String
deriving Repr, DecidableEq

/-- The wrapper `div.field` produced by `createField`, together with the
runtime display style the visibility engine mutates.  `visibleMeta` models the
`data-visible-if-field`/`data-visible-if-equals` dataset pair (set together
when `field.visibleIf` is present), `permissionHidden` the
`permission-hidden` class, and `display` the inline `style.display`
(`""` = visible, `"none"` = hidden). -/
structure Wrapper where
  fieldId : String
  permissionHidden : Bool
  labelText : Option String
  requiredMark : Bool
  control : Option Control
  helpDiv : Option String
  visibleMeta : Option (String × String)
  display : String
deriving Repr, DecidableEq

/-- The permission check of `createField` (line 34):
`field.permissions && (!field.permissions.roles || !field.permissions.roles.includes(userRole))`.
A present `permissions` with an absent `roles` array suppresses; otherwise the
role must occur (exact string equality) in the array. -/
def suppressed (field : FieldSpec) (userRole : String) : Bool :=
  match field.permissions with
  | none => false
  | some p =>
    match p.roles with
    | none => true
    | some rs => !(rs.contains userRole)

/-- The effective role list of a field: the entries its `includes` check runs
over (empty when `permissions` or `roles` is absent). -/
def permissionRoles (field : FieldSpec) : List String :=
  match field.permissions with
  | none => []
  | some p => p.roles.getD []

/-- The switch over `field.type` in `createField` (lines 52-72).  The
`date`/`time`/`text` cases fall through to the default, which executes
`input.type = field.type || 'text'` — the type string is passed through
verbatim (empty/absent falls back to `"text"`).  A truthiness check guards
`input.rows = field.rows`, so `rows: 0` is not set. -/
def buildControlKind (field : FieldSpec) : ControlKind :=
  match field.type with
  | none => ControlKind.input "text"
  | some t =>
    if t = "textarea" then
      ControlKind.textarea (match field.rows with
        | some 0 => none
        | r => r)
    else if t = "select" then
      ControlKind.select (field.options.getD [])
    else
      ControlKind.input (if t = "" then "text" else t)

/-- The initial (platform default) value of a freshly built control: `""` for
inputs and textareas, the first option for a select (or `""` when it has no
options). -/
def initialControlValue : ControlKind → String
  | ControlKind.input _ => ""
  | ControlKind.textarea _ => ""
  | ControlKind.select opts => opts.headD ""

/-- `createField(field, userRole)` (lines 28-95).  A suppressed field yields
the bare wrapper with the `permission-hidden` class and no control, label,
help or visibility metadata; otherwise the label, control, optional help div
and optional visibility dataset are attached.  Truthiness checks guard the
`placeholder` and `helpText` assignments, so empty strings are not set. -/
def createField (field : FieldSpec) (userRole : String) : Wrapper :=
  if suppressed field userRole then
    { fieldId := field.id
      permissionHidden := true
      labelText := none
      requiredMark := false
      control := none
      helpDiv := none
      visibleMeta := none
      display := "" }
  else
    let kind := buildControlKind field
    { fieldId := field.id
      permissionHidden := false
      labelText := some field.label
      requiredMark := field.required
      control := some
        { id := field.id
          name := field.id
          kind := kind
          required := field.required
          placeholder := match field.placeholder with
            | some "" => none
            | p => p
          value := initialControlValue kind }
      helpDiv := match field.helpText with
        | some "" => none
        | h => h
      visibleMeta := field.visibleIf.map (fun v => (v.field, v.equals))
      display := "" }

/-- The interactive controls of a wrapper list, in document order (each
wrapper holds at most one control; suppressed wrappers hold none). -/
def interactiveControls (ws : List Wrapper) : List Control :=
  ws.filterMap Wrapper.control

/-- The last control in the list whose `name` is `nm`; models a JavaScript
object built by `fieldMap[input.name] = input` over the controls in order
(a later assignment to the same key wins), read back at key `nm`. -/
def lastNamed (cs : List Control) (nm : String) : Option Control :=
  cs.foldl (fun acc c => if c.name = nm then some c else acc) none

/-- The `fieldMap` lookup of `applyVisibilityRules` (lines 99-103, 111):
for each `.field` wrapper its first contained input (if any) is stored under
its `name`; lookup returns the stored control. -/
def fieldMapLookup (ws : List Wrapper) (nm : String) : Option Control :=
  lastNamed (interactiveControls ws) nm

/-- One iteration of the `updateVisibility` loop (lines 106-116) on a single
wrapper: absent metadata — or a falsy (empty) controller id, via
`if (!depField) return` — skips the wrapper, as does a failed `fieldMap`
lookup; otherwise `style.display` is set from the strict string comparison of
the controller's current value with the recorded target. -/
def updateWrapper (lookup : String → Option Control) (w : Wrapper) : Wrapper :=
  match w.visibleMeta with
  | none => w
  | some (depField, depValue) =>
    if depField = "" then w
    else
      match lookup depField with
      | none => w
      | some controller =>
        { w with display := if controller.value = depValue then "" else "none" }

/-- `updateVisibility()` (lines 105-117): recompute every wrapper's display
from the current control values. -/
def updateVisibility (ws : List Wrapper) : List Wrapper :=
  ws.map (updateWrapper (fieldMapLookup ws))

/-- `applyVisibilityRules(formEl)` (lines 97-123): after attaching a change
listener (which re-runs `updateVisibility`) to every mapped control, the
initial visibility pass runs once at mount.  The state effect at mount is the
initial `updateVisibility()` call on line 122. -/
def applyVisibilityRules (ws : List Wrapper) : List Wrapper :=
  updateVisibility ws

/-- Sort key of a section: `(a.order || 0)` (line 139); an absent `order`
(and an explicit 0) count as 0. -/
def orderKey (s : Section) : Int :=
  s.order.getD 0

/-- The comparator relation induced by `(a, b) => (a.order || 0) - (b.order || 0)`. -/
def sectionOrderLE (a b : Section) : Prop :=
  orderKey a ≤ orderKey b

instance : DecidableRel sectionOrderLE :=
  fun a b => inferInstanceAs (Decidable (orderKey a ≤ orderKey b))

instance : IsTotal Section sectionOrderLE :=
  ⟨fun a b => Int.le_total (orderKey a) (orderKey b)⟩

instance : IsTrans Section sectionOrderLE :=
  ⟨fun _ _ _ h1 h2 => le_trans h1 h2⟩

/-- `[...config.sections].sort((a, b) => (a.order || 0) - (b.order || 0))`
(line 139).  `Array.prototype.sort` is a stable sort and this comparator is
consistent, so the result is the unique stable ascending sort by `orderKey`,
here realised by insertion sort. -/
def sortSections (l : List Section) : List Section :=
  l.insertionSort sectionOrderLE

/-- Whether numbered headings are on: `config.layout && config.layout.showSectionNumbers`
(line 148); an absent `layout` is falsy. -/
def showNumbers (config : FormConfig) : Bool :=
  match config.layout with
  | some l => l.showSectionNumbers
  | none => false

/-- The heading text of the section at (0-based) sorted position `index`
(lines 148-152). -/
def sectionHeading (config : FormConfig) (index : Nat) (s : Section) : String :=
  if showNumbers config then toString (index + 1) ++ ". " ++ s.label
  else s.label

/-- One rendered `<section>` element: its `h3` heading, optional help
paragraph, and field wrappers. -/
structure RenderedSection where
  heading : String
  helpPara : Option String
  fields : List Wrapper
deriving Repr, DecidableEq

/-- The body of the `sections.forEach((section, index) => ...)` callback
(lines 141-169): heading, optional section help (guarded by truthiness), and
one `createField` wrapper per entry of `(section.fields || [])`. -/
def renderSection (config : FormConfig) (userRole : String) (index : Nat)
    (s : Section) : RenderedSection :=
  { heading := sectionHeading config index s
    helpPara := match s.helpText with
      | some "" => none
      | h => h
    fields := (s.fields.getD []).map (fun f => createField f userRole) }

/-- The `forEach` traversal with its running index. -/
def renderSectionsFrom (config : FormConfig) (userRole : String) :
    Nat → List Section → List RenderedSection
  | _, [] => []
  | index, s :: rest =>
    renderSection config userRole index s ::
      renderSectionsFrom config userRole (index + 1) rest

/-- All rendered sections of `renderForm`, in sorted order. -/
def renderSections (config : FormConfig) (userRole : String) :
    List RenderedSection :=
  renderSectionsFrom config userRole 0 (sortSections config.sections)

/-- All field wrappers attached to the form, in document order. -/
def formWrappers (config : FormConfig) (userRole : String) : List Wrapper :=
  ((renderSections config userRole).map RenderedSection.fields).flatten

/-- Every field specification occurring in the configuration (document
order; `(section.fields || [])` per section). -/
def allFields (config : FormConfig) : List FieldSpec :=
  (config.sections.map (fun s => s.fields.getD [])).flatten

/-- `new FormData(formEl)` (line 192): the name/value pairs of the form's
interactive controls, in document order.  (The submit button carries no
`name` and contributes no entry.) -/
def formEntries (ws : List Wrapper) : List (String × String) :=
  (interactiveControls ws).map (fun c => (c.name, c.value))

/-- One step of `data[key] = value` on a JavaScript object modelled as an
insertion-ordered association list: an existing key keeps its position and
gets the new value, a fresh key is appended. -/
def objAssign (data : List (String × String)) (key value : String) :
    List (String × String) :=
  if data.any (fun p => p.fst == key) then
    data.map (fun p => if p.fst == key then (key, value) else p)
  else
    data ++ [(key, value)]

/-- The loop `for (const [key, value] of formData.entries()) data[key] = value`
(lines 193-196): later entries overwrite earlier ones under the same key. -/
def buildData (entries : List (String × String)) : List (String × String) :=
  entries.foldl (fun data e => objAssign data e.fst e.snd) []

/-- Native constraint validation of one control: a required control with an
empty value is invalid. -/
def controlValid (c : Control) : Bool :=
  !c.required || !(c.value == "")

/-- `formEl.checkValidity()` (line 179) over the form's interactive
controls. -/
def formValid (ws : List Wrapper) : Bool :=
  (interactiveControls ws).all controlValid

/-- The `#validation-summary` element, with an identity tag so that
create-versus-reuse is observable (`document.getElementById` finds the
element created by an earlier failure). -/
structure SummaryState where
  elemId : Nat
  text : String
  shown : Bool
deriving Repr, DecidableEq

/-- The `#form-output` region: whether the `hidden` class has been removed,
and the data rendered into `#output-json` (the textual rendering is the
platform's `JSON.stringify(data, null, 2)` of this association list). -/
structure OutputState where
  revealed : Bool
  content : Option (List (String × String))
deriving Repr, DecidableEq

/-- The page state the submit handler reads and writes. -/
structure FormState where
  wrappers : List Wrapper
  summary : Option SummaryState
  nextElemId : Nat
  output : OutputState
deriving Repr, DecidableEq

/-- The fixed message of line 182. -/
def validationMessage : String :=
  "Please fix the errors above before submitting."

/-- The submit listener (lines 176-202), with the produced snapshot (if any)
returned alongside the new state.  Invalid: get-or-create the summary, set
its text and show it, stop.  Valid: un-show any existing summary, build the
snapshot with last-wins object assignment, render it and reveal the output
area. -/
def handleSubmit (st : FormState) : FormState × Option (List (String × String)) :=
  if formValid st.wrappers then
    let data := buildData (formEntries st.wrappers)
    ({ st with
        summary := st.summary.map (fun s => { s with shown := false })
        output := { revealed := true, content := some data } },
      some data)
  else
    match st.summary with
    | some s =>
      ({ st with summary := some { s with text := validationMessage, shown := true } },
        none)
    | none =>
      ({ st with
          summary := some
            { elemId := st.nextElemId, text := validationMessage, shown := true }
          nextElemId := st.nextElemId + 1 },
        none)

/-- JSON values, at the granularity the renderer produces: an object of
string members.  `JSON.stringify(data, null, 2)` and `JSON.parse` are the
platform's faithful textual encoding of this tree. -/
inductive Json where
  | str (s : String)
  | obj (members : List (String × Json))

/-- The JSON tree `JSON.stringify` serializes for the snapshot object. -/
def snapshotToJson (data : List (String × String)) : Json :=
  Json.obj (data.map (fun p => (p.fst, Json.str p.snd)))

/-- Read back one object member as a snapshot entry. -/
def memberToEntry : String × Json → Option (String × String)
  | (k, Json.str v) => some (k, v)
  | (_, Json.obj _) => none

/-- Deserialize the members of a JSON object as flat entries. -/
def entriesOfMembers : List (String × Json) → Option (List (String × String))
  | [] => some []
  | m :: ms =>
    match memberToEntry m, entriesOfMembers ms with
    | some e, some es => some (e :: es)
    | _, _ => none

/-- Deserialize a JSON tree as a flat string-to-string snapshot. -/
def jsonToSnapshot : Json → Option (List (String × String))
  | Json.obj members => entriesOfMembers members
  | Json.str _ => none

/-- Reading property `k` of a JavaScript object modelled as an
insertion-ordered association list: the first (and, keys being unique by
construction, only) entry with that key. -/
def lookupKey (data : List (String × String)) (k : String) : Option String :=
  (data.find? (fun p => p.fst == k)).map Prod.snd

/-- Set the value of a wrapper's control (a user edit of that control). -/
def setWrapperValue (w : Wrapper) (v : String) : Wrapper :=
  match w.control with
  | none => w
  | some c => { w with control := some { c with value := v } }

/-- A user edit of the control held by the wrapper at position `i`. -/
def editValue : List Wrapper → Nat → String → List Wrapper
  | [], _, _ => []
  | w :: ws, 0, v => setWrapperValue w v :: ws
  | w :: ws, Nat.succ i, v => w :: editValue ws i v

/-- A change notification: the user edits a control, then the attached
`change` listener re-runs `updateVisibility` (line 120). -/
def userChange (ws : List Wrapper) (i : Nat) (v : String) : List Wrapper :=
  updateVisibility (editValue ws i v)

/-- A whole interaction session: mount (render + initial visibility pass),
followed by any sequence of user edits with their change notifications. -/
def runSession (config : FormConfig) (userRole : String)
    (edits : List (Nat × String)) : List Wrapper :=
  edits.foldl (fun ws e => userChange ws e.fst e.snd)
    (applyVisibilityRules (formWrappers config userRole))

/-- The result of the configuration fetch, as `loadConfig` observes it:
the `ok` flag, the `statusText`, and (when ok) the parsed JSON body. -/
structure Response where
  ok : Bool
  statusText : String
  body : FormConfig
deriving Repr, DecidableEq

/-- Console log entries. -/
inductive LogEntry where
  | error (msg : String)
  | info (msg : String)
deriving Repr, DecidableEq

/-- The language title override of `loadConfig` (lines 19-22):
`config.languages && config.languages[lang]`, then a truthy `title`
replaces the base title. -/
def applyLangOverride (config : FormConfig) (lang : String) : FormConfig :=
  match config.languages with
  | none => config
  | some langs =>
    match List.lookup lang langs with
    | none => config
    | some langData =>
      match langData.title with
      | none => config
      | some t => if t = "" then config else { config with title := t }

/-- `loadConfig()` (lines 1-26), given the fetch result: on failure log the
error and return null; on success apply the language override and log the
load. -/
def loadConfig (resp : Response) (lang : String) :
    Option FormConfig × List LogEntry :=
  if resp.ok then
    (some (applyLangOverride resp.body lang),
      [LogEntry.info ("Loaded config in " ++ lang)])
  else
    (none, [LogEntry.error ("Failed to load config " ++ resp.statusText)])

/-- The whole page: the `#form-metadata` children (title and description
texts), the rendered form (absent until `renderForm` runs), and the console
log. -/
structure Page where
  metaChildren : List String
  form : Option FormState
  log : List LogEntry
deriving Repr, DecidableEq

/-- The empty host page scaffolding before any script runs. -/
def emptyPage : Page :=
  { metaChildren := [], form := none, log := [] }

/-- The form state `renderForm(config)` leaves behind at mount: wrappers
after the initial visibility pass, no validation summary, output area
hidden. -/
def initialFormState (config : FormConfig) (userRole : String) : FormState :=
  { wrappers := applyVisibilityRules (formWrappers config userRole)
    summary := none
    nextElemId := 0
    output := { revealed := false, content := none } }

/-- The `DOMContentLoaded` handler (lines 215-220): load the configuration;
only a non-null result is rendered. -/
def onDOMContentLoaded (resp : Response) (lang userRole : String) : Page :=
  match loadConfig resp lang with
  | (none, log) => { emptyPage with log := log }
  | (some config, log) =>
    { metaChildren := [config.title, config.description]
      form := some (initialFormState config userRole)
      log := log }

/-- ASCII-lowercase one character (A-Z only); other characters are kept,
matching the ASCII case-insensitivity of HTML enumerated-attribute
keywords. -/
def asciiLowerChar (c : Char) : Char :=
  if 65 ≤ c.toNat ∧ c.toNat ≤ 90 then Char.ofNat (c.toNat + 32) else c

/-- ASCII-lowercase a string, character by character. -/
def asciiLower (s : String) : String :=
  String.mk (s.data.map asciiLowerChar)

/-- Modelled from the platform (HTML): the `type` content attribute of an
`input` element is an enumerated attribute; these are its valid keywords
(canonical lowercase form). -/
def inputTypeKeywords : List String :=
  ["hidden", "text", "search", "tel", "url", "email", "password", "date",
    "month", "week", "time", "datetime-local", "number", "range", "color",
    "checkbox", "radio", "file", "submit", "image", "reset", "button"]

/-- Modelled from the platform (HTML): the state an `input` element assumes
for a given `type` attribute string — the ASCII-case-insensitively matching
keyword (in its canonical lowercase form), or the invalid-value default, the
Text state. -/
def inputTypeState (t : String) : String :=
  if inputTypeKeywords.contains (asciiLower t) then asciiLower t else "text"

/-- Whether a built control is a single-line Text input: an `input` element
resolved to the platform's Text state. -/
def isTextInput (c : Control) : Bool :=
  match c.kind with
  | ControlKind.input t => inputTypeState t == "text"
  | ControlKind.textarea _ => false
  | ControlKind.select _ => false

/-! ## Helper lemmas about the visibility engine -/

lemma getElem?_updateVisibility (ws : List Wrapper) (i : Nat) :
    (updateVisibility ws)[i]? = ws[i]?.map (updateWrapper (fieldMapLookup ws)) := by
  rw [updateVisibility, List.getElem?_map]

lemma updateWrapper_found (lk : String → Option Control) (w : Wrapper)
    (c t : String) (ctrl : Control)
    (hm : w.visibleMeta = some (c, t)) (hc : c ≠ "") (hl : lk c = some ctrl) :
    updateWrapper lk w = { w with display := if ctrl.value = t then "" else "none" } := by
  simp only [updateWrapper, hm]
  rw [if_neg hc, hl]

lemma updateWrapper_skipped (lk : String → Option Control) (w : Wrapper)
    (c t : String)
    (hm : w.visibleMeta = some (c, t)) (hl : lk c = none) :
    updateWrapper lk w = w := by
  simp only [updateWrapper, hm]
  by_cases hc : c = ""
  · rw [if_pos hc]
  · rw [if_neg hc, hl]

lemma updateWrapper_no_meta (lk : String → Option Control) (w : Wrapper)
    (hm : w.visibleMeta = none) : updateWrapper lk w = w := by
  simp only [updateWrapper, hm]

/-- C1 (amended): for a dependent field whose recorded controller id is a
nonempty string and resolves in the field map, the visibility engine sets the
field Visible (display `""`) exactly when the controller control's current
value string-equals the recorded target, and Hidden (display `"none"`)
otherwise — both at the initial mount evaluation (`applyVisibilityRules`) and
at every change notification (each of which re-runs `updateVisibility` on the
current state). -/
theorem dependent_visible_iff_controller_matches (ws : List Wrapper) (i : Nat)
    (w : Wrapper) (c t : String) (ctrl : Control)
    (hw : ws[i]? = some w)
    (hm : w.visibleMeta = some (c, t))
    (hc : c ≠ "")
    (hl : fieldMapLookup ws c = some ctrl) :
    ∃ w1 : Wrapper,
      (applyVisibilityRules ws)[i]? = some w1
      ∧ (updateVisibility ws)[i]? = some w1
      ∧ (w1.display = "" ↔ ctrl.value = t)
      ∧ (w1.display = "none" ↔ ctrl.value ≠ t) := by
  refine ⟨{ w with display := if ctrl.value = t then "" else "none" }, ?_, ?_, ?_, ?_⟩
  · rw [applyVisibilityRules, getElem?_updateVisibility, hw, Option.map_some',
      updateWrapper_found (fieldMapLookup ws) w c t ctrl hm hc hl]
  · rw [getElem?_updateVisibility, hw, Option.map_some',
      updateWrapper_found (fieldMapLookup ws) w c t ctrl hm hc hl]
  · by_cases hv : ctrl.value = t <;> simp [hv]
  · by_cases hv : ctrl.value = t <;> simp [hv]

/-- Concrete form for the C1 witness: a select controller `b` (initial value
`"x"`) and a dependent field `c` shown only when `b` equals `"y"`. -/
def witnessControllerField : FieldSpec :=
  { id := "b", label := "B", type := some "select", options := some ["x", "y"] }

def witnessDependentField : FieldSpec :=
  { id := "c", label := "C", visibleIf := some { field := "b", equals := "y" } }

def witnessConfig : FormConfig :=
  { title := "T", description := "D",
    sections := [{ label := "S", fields := some [witnessControllerField, witnessDependentField] }] }

def witnessControllerControl : Control :=
  { id := "b", name := "b", kind := ControlKind.select ["x", "y"],
    required := false, placeholder := none, value := "x" }

theorem dependent_visible_iff_controller_matches_witness :
    ∃ w1 : Wrapper,
      (applyVisibilityRules (formWrappers witnessConfig "user"))[1]? = some w1
      ∧ (updateVisibility (formWrappers witnessConfig "user"))[1]? = some w1
      ∧ (w1.display = "" ↔ witnessControllerControl.value = "y")
      ∧ (w1.display = "none" ↔ witnessControllerControl.value ≠ "y") :=
  dependent_visible_iff_controller_matches (formWrappers witnessConfig "user") 1
    (createField witnessDependentField "user") "b" "y" witnessControllerControl
    (by decide) (by decide) (by decide) (by decide)

/-- Concrete refutation input for C1 as stated: the controller field's id is
the empty string, so the dataset guard `if (!depField) return` skips the
dependent field even though a controller control exists under that name. -/
def emptyIdControllerField : FieldSpec :=
  { id := "", label := "Z", type := some "select", options := some ["x", "y"] }

def emptyIdDependentField : FieldSpec :=
  { id := "d", label := "Dep", visibleIf := some { field := "", equals := "y" } }

def emptyIdConfig : FormConfig :=
  { title := "T",
    sections := [{ label := "S", fields := some [emptyIdControllerField, emptyIdDependentField] }] }

def emptyIdControllerControl : Control :=
  { id := "", name := "", kind := ControlKind.select ["x", "y"],
    required := false, placeholder := none, value := "x" }

/-! ## Sorting lemmas for C2 -/

lemma filter_orderedInsert (k : Int) (s : Section) (m : List Section) :
    (List.orderedInsert sectionOrderLE s m).filter (fun u => orderKey u == k)
      = if orderKey s == k then s :: m.filter (fun u => orderKey u == k)
        else m.filter (fun u => orderKey u == k) := by
  induction m with
  | nil =>
    by_cases hs : orderKey s = k <;>
      simp [List.orderedInsert, List.filter_cons, hs]
  | cons u us ih =>
    by_cases hsu : sectionOrderLE s u
    · rw [List.orderedInsert, if_pos hsu]
      by_cases hs : orderKey s = k <;> simp [List.filter_cons, hs]
    · rw [List.orderedInsert, if_neg hsu]
      have hlt : orderKey u < orderKey s := lt_of_not_le hsu
      by_cases hu : orderKey u = k
      · have hs : ¬ orderKey s = k := by
          intro h
          exact absurd (hu.trans h.symm) (ne_of_lt hlt)
        simp [List.filter_cons, hu, hs, ih]
      · by_cases hs : orderKey s = k <;> simp [List.filter_cons, hu, hs, ih]

lemma filter_sortSections (k : Int) (l : List Section) :
    (sortSections l).filter (fun u => orderKey u == k)
      = l.filter (fun u => orderKey u == k) := by
  induction l with
  | nil => rfl
  | cons s rest ih =>
    rw [sortSections, List.insertionSort, filter_orderedInsert]
    rw [sortSections] at ih
    by_cases hs : orderKey s = k <;> simp [List.filter_cons, hs, ih]

lemma length_sortSections (l : List Section) :
    (sortSections l).length = l.length :=
  (List.perm_insertionSort sectionOrderLE l).length_eq

lemma length_renderSectionsFrom (config : FormConfig) (userRole : String) :
    ∀ (n : Nat) (l : List Section),
      (renderSectionsFrom config userRole n l).length = l.length
  | _, [] => rfl
  | n, _ :: rest => by
    rw [renderSectionsFrom, List.length_cons,
      length_renderSectionsFrom config userRole (n + 1) rest, List.length_cons]

/-- C2: the assembler sorts the sections ascending by their order key
(`order`, defaulting to 0 when absent), the sort is stable — for every key
value, the sections carrying it appear in their original configuration
order — and each section yields exactly one rendered heading. -/
theorem sections_sorted_stably_one_heading_each (config : FormConfig)
    (userRole : String) :
    List.Sorted sectionOrderLE (sortSections config.sections)
    ∧ (∀ k : Int, (sortSections config.sections).filter (fun u => orderKey u == k)
        = config.sections.filter (fun u => orderKey u == k))
    ∧ (renderSections config userRole).length = config.sections.length := by
  refine ⟨List.sorted_insertionSort sectionOrderLE config.sections,
    fun k => filter_sortSections k config.sections, ?_⟩
  rw [renderSections, length_renderSectionsFrom, length_sortSections]

/-! ## Lemmas about createField, and C3 -/

lemma buildControlKind_passthrough (f : FieldSpec) (t : String)
    (ht : f.type = some t) (h1 : t ≠ "textarea") (h2 : t ≠ "select")
    (h3 : t ≠ "") :
    buildControlKind f = ControlKind.input t := by
  simp only [buildControlKind, ht]
  rw [if_neg h1, if_neg h2, if_neg h3]

lemma createField_control_not_suppressed (f : FieldSpec) (userRole : String)
    (hs : suppressed f userRole = false) :
    ∃ c : Control, (createField f userRole).control = some c
      ∧ c.kind = buildControlKind f
      ∧ c.name = f.id
      ∧ c.required = f.required
      ∧ c.value = initialControlValue (buildControlKind f) := by
  unfold createField
  rw [if_neg (by simp [hs])]
  exact ⟨_, rfl, rfl, rfl, rfl, rfl⟩

def checkboxField : FieldSpec :=
  { id := "k", label := "K", type := some "checkbox" }

/-- C3 counterexample: the unrecognized type string `"checkbox"` does not
fall back to a Text control — `createField` passes it through to the input
element's type attribute, and the platform renders a checkbox, not a
single-line Text input. -/
theorem unknown_type_fallback_counterexample :
    checkboxField.type = some "checkbox"
    ∧ "checkbox" ∉ ["text", "textarea", "select", "date", "time"]
    ∧ (createField checkboxField "user").control.map Control.kind
      = some (ControlKind.input "checkbox")
    ∧ (createField checkboxField "user").control.map isTextInput = some false :=
  ⟨rfl, by decide, by decide, by decide⟩

/-- C3 (amended): for a non-suppressed field whose `type` string is not one
of the recognized variants text/textarea/select/date/time, the built control
is an input element whose type attribute is that string verbatim (the empty
string falling back to `"text"` via `field.type || 'text'`); the platform
resolves the attribute ASCII-case-insensitively, landing in the single-line
Text state exactly when the string is empty, lowercases to `"text"`, or
lowercases to no platform input-type keyword — so only strings the platform
does not recognize fall back to Text, while platform keywords such as
`"checkbox"` or `"number"` (in any ASCII case) render as those controls. -/
theorem unknown_type_passthrough (f : FieldSpec) (userRole t : String)
    (hsup : suppressed f userRole = false)
    (ht : f.type = some t)
    (hnr : t ∉ ["text", "textarea", "select", "date", "time"]) :
    (createField f userRole).control.map Control.kind
      = some (ControlKind.input (if t = "" then "text" else t))
    ∧ ((createField f userRole).control.map isTextInput = some true
        ↔ (t = "" ∨ asciiLower t = "text" ∨ asciiLower t ∉ inputTypeKeywords)) := by
  obtain ⟨c, hc, hck, -, -, -⟩ := createField_control_not_suppressed f userRole hsup
  by_cases hne : t = ""
  · subst hne
    have hk : buildControlKind f = ControlKind.input "text" := by
      simp [buildControlKind, ht]
    constructor
    · rw [hc, Option.map_some', hck, hk]
      rfl
    · rw [hc, Option.map_some']
      have hit : isTextInput c = true := by
        rw [isTextInput, hck, hk]
        decide
      rw [hit]
      exact iff_of_true rfl (Or.inl rfl)
  · have h1 : t ≠ "textarea" := by intro h; rw [h] at hnr; simp at hnr
    have h2 : t ≠ "select" := by intro h; rw [h] at hnr; simp at hnr
    have hk := buildControlKind_passthrough f t ht h1 h2 hne
    constructor
    · rw [hc, Option.map_some', hck, hk, if_neg hne]
    · rw [hc, Option.map_some']
      have hit : isTextInput c = (inputTypeState t == "text") := by
        rw [isTextInput, hck, hk]
      rw [hit, inputTypeState]
      by_cases hmem : asciiLower t ∈ inputTypeKeywords
      · have hct : inputTypeKeywords.contains (asciiLower t) = true := by
          simpa using hmem
        rw [if_pos hct]
        simp [hne, hmem]
      · rw [if_neg (by simpa using hmem)]
        exact iff_of_true (by decide) (Or.inr (Or.inr hmem))

theorem unknown_type_passthrough_witness :
    (createField checkboxField "user").control.map Control.kind
      = some (ControlKind.input (if ("checkbox" : String) = "" then "text" else "checkbox"))
    ∧ ((createField checkboxField "user").control.map isTextInput = some true
        ↔ (("checkbox" : String) = "" ∨ asciiLower "checkbox" = "text"
            ∨ asciiLower "checkbox" ∉ inputTypeKeywords)) :=
  unknown_type_passthrough checkboxField "user" "checkbox" (by decide) rfl (by decide)

/-- C1 counterexample: in `emptyIdConfig` the dependent field is bound by
`visibleIf {field: "", equals: "y"}`, the controller control exists in the
field map with current value `"x" ≠ "y"`, yet after the mount evaluation the
dependent field's display is `""` (Visible), not `"none"` (Hidden) — the
engine's falsy check on the controller id skipped it. -/
theorem dependent_visible_iff_controller_matches_counterexample :
    ((formWrappers emptyIdConfig "user")[1]?).map Wrapper.visibleMeta
      = some (some ("", "y"))
    ∧ fieldMapLookup (formWrappers emptyIdConfig "user") "" = some emptyIdControllerControl
    ∧ emptyIdControllerControl.value ≠ "y"
    ∧ ((applyVisibilityRules (formWrappers emptyIdConfig "user"))[1]?).map Wrapper.display
      = some ""
    ∧ ("" : String) ≠ "none" := by
  refine ⟨by decide, by decide, by decide, by decide, by decide⟩

/-! ## C4: permission filtering -/

lemma suppressed_iff (f : FieldSpec) (userRole : String) :
    suppressed f userRole = true
      ↔ (f.permissions.isSome = true ∧ userRole ∉ permissionRoles f) := by
  cases hp : f.permissions with
  | none => simp [suppressed, hp, permissionRoles]
  | some p =>
    cases hr : p.roles with
    | none => simp [suppressed, hp, hr, permissionRoles]
    | some rs => simp [suppressed, hp, hr, permissionRoles]

/-- C4: a field is rendered as a suppressed placeholder (the
`permission-hidden` marker, no interactive control) exactly when
`permissions` is present and its effective role list does not contain the
role — membership being exact, case-sensitive string equality — and a field
with no `permissions` always gets an interactive control. -/
theorem permission_filter_suppress_iff (f : FieldSpec) (userRole : String) :
    (((createField f userRole).permissionHidden = true
        ∧ (createField f userRole).control = none)
      ↔ (f.permissions.isSome = true ∧ userRole ∉ permissionRoles f))
    ∧ (f.permissions = none → (createField f userRole).control.isSome = true) := by
  constructor
  · rw [← suppressed_iff]
    by_cases hs : suppressed f userRole
    · simp [createField, hs]
    · simp [createField, hs]
  · intro hp
    have hs : suppressed f userRole = false := by simp [suppressed, hp]
    obtain ⟨c, hc, -, -, -, -⟩ := createField_control_not_suppressed f userRole hs
    rw [hc]
    rfl

/-- Concrete input for the C4 witness: an admin-only field under role
`"user"`. -/
def adminOnlyFieldW : FieldSpec :=
  { id := "aw", label := "AW", permissions := some { roles := some ["admin"] } }

theorem permission_filter_suppress_iff_witness :
    (((createField adminOnlyFieldW "user").permissionHidden = true
        ∧ (createField adminOnlyFieldW "user").control = none)
      ↔ (adminOnlyFieldW.permissions.isSome = true
          ∧ "user" ∉ permissionRoles adminOnlyFieldW))
    ∧ (adminOnlyFieldW.permissions = none →
        (createField adminOnlyFieldW "user").control.isSome = true) :=
  permission_filter_suppress_iff adminOnlyFieldW "user"

/-! ## C5: invalid submission -/

/-- C5: on a submit with some required interactive control empty, the
validation summary exists with exactly the fixed message and is shown; it is
freshly created when none existed (consuming the element-id counter) and the
existing element is reused otherwise; no snapshot is produced and the output
area's state is untouched. -/
theorem invalid_submit_shows_summary_no_snapshot (st : FormState)
    (h : formValid st.wrappers = false) :
    ∃ s : SummaryState,
      (handleSubmit st).fst.summary = some s
      ∧ s.text = "Please fix the errors above before submitting."
      ∧ s.shown = true
      ∧ (handleSubmit st).snd = none
      ∧ (handleSubmit st).fst.output = st.output
      ∧ (handleSubmit st).fst.wrappers = st.wrappers
      ∧ (∀ s0 : SummaryState, st.summary = some s0 → s.elemId = s0.elemId)
      ∧ (st.summary = none →
          s.elemId = st.nextElemId
          ∧ (handleSubmit st).fst.nextElemId = st.nextElemId + 1) := by
  cases hsum : st.summary with
  | none =>
    refine ⟨{ elemId := st.nextElemId, text := validationMessage, shown := true },
      ?_, rfl, rfl, ?_, ?_, ?_, ?_, ?_⟩ <;>
      simp [handleSubmit, h, hsum, validationMessage]
  | some s0 =>
    refine ⟨{ s0 with text := validationMessage, shown := true },
      ?_, rfl, rfl, ?_, ?_, ?_, ?_, ?_⟩ <;>
      simp [handleSubmit, h, hsum, validationMessage]

/-- Concrete input for the C5 witness: a single required text field, left
empty at mount. -/
def requiredField : FieldSpec :=
  { id := "r", label := "R", required := true }

def requiredConfig : FormConfig :=
  { title := "T", sections := [{ label := "S", fields := some [requiredField] }] }

theorem invalid_submit_shows_summary_no_snapshot_witness :
    ∃ s : SummaryState,
      (handleSubmit (initialFormState requiredConfig "user")).fst.summary = some s
      ∧ s.text = "Please fix the errors above before submitting."
      ∧ s.shown = true
      ∧ (handleSubmit (initialFormState requiredConfig "user")).snd = none
      ∧ (handleSubmit (initialFormState requiredConfig "user")).fst.output
        = (initialFormState requiredConfig "user").output
      ∧ (handleSubmit (initialFormState requiredConfig "user")).fst.wrappers
        = (initialFormState requiredConfig "user").wrappers
      ∧ (∀ s0 : SummaryState,
          (initialFormState requiredConfig "user").summary = some s0 → s.elemId = s0.elemId)
      ∧ ((initialFormState requiredConfig "user").summary = none →
          s.elemId = (initialFormState requiredConfig "user").nextElemId
          ∧ (handleSubmit (initialFormState requiredConfig "user")).fst.nextElemId
            = (initialFormState requiredConfig "user").nextElemId + 1) :=
  invalid_submit_shows_summary_no_snapshot (initialFormState requiredConfig "user")
    (by decide)

/-! ## C6: snapshot construction and round trip -/

lemma lookupKey_map_replace_ne (k key value : String) (hk : ¬ k = key) :
    ∀ data : List (String × String),
      lookupKey (data.map (fun p => if p.fst == key then (key, value) else p)) k
        = lookupKey data k
  | [] => rfl
  | p :: ps => by
    have ih := lookupKey_map_replace_ne k key value hk ps
    simp only [lookupKey] at ih ⊢
    rw [List.map_cons]
    cases hb : p.fst == key with
    | true =>
      rw [if_pos rfl]
      have hpk : p.fst = key := by simpa using hb
      have h1 : (key == k) = false := by simpa using fun hh => hk hh.symm
      have h2 : (p.fst == k) = false := by rw [hpk]; exact h1
      simp only [List.find?_cons, h1, h2, ih]
    | false =>
      rw [if_neg (by simp [hb])]
      cases hpk : p.fst == k with
      | true => simp only [List.find?_cons, hpk]
      | false => simp only [List.find?_cons, hpk, ih]

lemma lookupKey_map_replace_eq (key value : String) :
    ∀ data : List (String × String), data.any (fun p => p.fst == key) = true →
      lookupKey (data.map (fun p => if p.fst == key then (key, value) else p)) key
        = some value
  | [], h => by simp at h
  | p :: ps, h => by
    rw [List.map_cons]
    cases hb : p.fst == key with
    | true =>
      rw [if_pos rfl]
      simp only [lookupKey, List.find?_cons, beq_self_eq_true]
      rfl
    | false =>
      have hps : ps.any (fun p => p.fst == key) = true := by
        rw [List.any_cons, hb] at h
        simpa using h
      have ih := lookupKey_map_replace_eq key value ps hps
      simp only [lookupKey] at ih ⊢
      rw [if_neg (by simp [hb])]
      simp only [List.find?_cons, hb, ih]

lemma lookupKey_append_fresh (k key value : String) :
    ∀ data : List (String × String), data.any (fun p => p.fst == key) = false →
      lookupKey (data ++ [(key, value)]) k
        = if k = key then some value else lookupKey data k
  | [], _ => by
    by_cases hk : k = key
    · simp [lookupKey, List.find?_cons, hk]
    · have h1 : (key == k) = false := by simpa using fun hh => hk hh.symm
      simp [lookupKey, List.find?_cons, h1, hk]
  | p :: ps, h => by
    have hb : (p.fst == key) = false := by
      rw [List.any_cons] at h
      exact (Bool.or_eq_false_iff.mp h).1
    have hps : ps.any (fun p => p.fst == key) = false := by
      rw [List.any_cons] at h
      exact (Bool.or_eq_false_iff.mp h).2
    have ih := lookupKey_append_fresh k key value ps hps
    rw [List.cons_append]
    simp only [lookupKey] at ih ⊢
    cases hpk : p.fst == k with
    | true =>
      have hk : ¬ k = key := by
        intro hh
        have h1 : p.fst = k := by simpa using hpk
        have h2 : ¬ p.fst = key := by simpa using hb
        exact h2 (h1.trans hh)
      simp only [List.find?_cons, hpk, if_neg hk]
    | false =>
      simp only [List.find?_cons, hpk, ih]

lemma lookupKey_objAssign (data : List (String × String)) (key value k : String) :
    lookupKey (objAssign data key value) k
      = if k = key then some value else lookupKey data k := by
  rw [objAssign]
  cases hany : data.any (fun p => p.fst == key) with
  | true =>
    rw [if_pos rfl]
    by_cases hk : k = key
    · rw [if_pos hk, hk]
      exact lookupKey_map_replace_eq key value data hany
    · rw [if_neg hk]
      exact lookupKey_map_replace_ne k key value hk data
  | false =>
    rw [if_neg (by simp)]
    exact lookupKey_append_fresh k key value data hany

lemma lookupKey_foldl_objAssign (k : String) :
    ∀ es acc : List (String × String),
      lookupKey (es.foldl (fun data e => objAssign data e.fst e.snd) acc) k
        = ((es.reverse.find? (fun p => p.fst == k)).map Prod.snd).or
            (lookupKey acc k)
  | [], acc => by simp
  | e :: es, acc => by
    have ih := lookupKey_foldl_objAssign k es (objAssign acc e.fst e.snd)
    rw [List.foldl_cons, ih, List.reverse_cons, List.find?_append,
      lookupKey_objAssign]
    cases hf : es.reverse.find? (fun p => p.fst == k) with
    | some q => rfl
    | none =>
      cases hpk : e.fst == k with
      | true =>
        have hk : k = e.fst := by
          have h1 : e.fst = k := by simpa using hpk
          exact h1.symm
        rw [if_pos hk]
        simp [List.find?_cons, hpk]
      | false =>
        have hk : ¬ k = e.fst := by
          intro hh
          rw [hh] at hpk
          simp at hpk
        rw [if_neg hk]
        simp [List.find?_cons, hpk]

lemma lookupKey_buildData (es : List (String × String)) (k : String) :
    lookupKey (buildData es) k
      = (es.reverse.find? (fun p => p.fst == k)).map Prod.snd := by
  rw [buildData, lookupKey_foldl_objAssign]
  simp [lookupKey]

lemma entriesOfMembers_map (data : List (String × String)) :
    entriesOfMembers (data.map (fun p => (p.fst, Json.str p.snd))) = some data := by
  induction data with
  | nil => rfl
  | cons p ps ih => simp [List.map_cons, entriesOfMembers, memberToEntry, ih]

lemma jsonToSnapshot_snapshotToJson (data : List (String × String)) :
    jsonToSnapshot (snapshotToJson data) = some data :=
  entriesOfMembers_map data

/-- C6: a fully valid submission produces the snapshot built from the
interactive controls' name/value entries with last-wins object assignment;
deserializing its produced JSON tree yields it back exactly; and, read as a
mapping (order-independently, by key lookup), it sends each key to the value
of the last interactive control carrying that name — in particular, when a
name occurs more than once in the form collection, the last value wins. -/
theorem valid_submit_snapshot_roundtrip (st : FormState)
    (h : formValid st.wrappers = true) :
    (handleSubmit st).snd = some (buildData (formEntries st.wrappers))
    ∧ (handleSubmit st).fst.output
      = { revealed := true, content := some (buildData (formEntries st.wrappers)) }
    ∧ jsonToSnapshot (snapshotToJson (buildData (formEntries st.wrappers)))
      = some (buildData (formEntries st.wrappers))
    ∧ ∀ k : String,
        lookupKey (buildData (formEntries st.wrappers)) k
          = ((interactiveControls st.wrappers).reverse.find?
              (fun c => c.name == k)).map Control.value := by
  refine ⟨?_, ?_, jsonToSnapshot_snapshotToJson _, ?_⟩
  · simp [handleSubmit, h]
  · simp [handleSubmit, h]
  · intro k
    rw [lookupKey_buildData, formEntries, ← List.map_reverse, List.find?_map]
    have hpred : ((fun p : String × String => p.fst == k)
        ∘ (fun c : Control => (c.name, c.value))) = fun c : Control => c.name == k :=
      rfl
    rw [hpred]
    cases hf : (interactiveControls st.wrappers).reverse.find?
        (fun c => c.name == k) with
    | none => rfl
    | some c => rfl

theorem valid_submit_snapshot_roundtrip_witness :
    (handleSubmit (initialFormState witnessConfig "user")).snd
      = some (buildData (formEntries (initialFormState witnessConfig "user").wrappers))
    ∧ (handleSubmit (initialFormState witnessConfig "user")).fst.output
      = { revealed := true,
          content := some (buildData (formEntries (initialFormState witnessConfig "user").wrappers)) }
    ∧ jsonToSnapshot (snapshotToJson
        (buildData (formEntries (initialFormState witnessConfig "user").wrappers)))
      = some (buildData (formEntries (initialFormState witnessConfig "user").wrappers))
    ∧ ∀ k : String,
        lookupKey (buildData (formEntries (initialFormState witnessConfig "user").wrappers)) k
          = ((interactiveControls (initialFormState witnessConfig "user").wrappers).reverse.find?
              (fun c => c.name == k)).map Control.value :=
  valid_submit_snapshot_roundtrip (initialFormState witnessConfig "user") (by decide)

/-! ## C7: suppressed fields never reach the snapshot -/

lemma mem_renderSectionsFrom (config : FormConfig) (userRole : String) :
    ∀ (n : Nat) (l : List Section) (rsec : RenderedSection),
      rsec ∈ renderSectionsFrom config userRole n l →
      ∃ i s, s ∈ l ∧ rsec = renderSection config userRole i s
  | _, [], rsec => by
    intro h
    rw [renderSectionsFrom] at h
    simp at h
  | n, s :: rest, rsec => by
    intro h
    rw [renderSectionsFrom] at h
    rcases List.mem_cons.mp h with h1 | h2
    · exact ⟨n, s, List.mem_cons_self s rest, h1⟩
    · obtain ⟨i, s1, hs1, he⟩ :=
        mem_renderSectionsFrom config userRole (n + 1) rest rsec h2
      exact ⟨i, s1, List.mem_cons_of_mem s hs1, he⟩

lemma mem_formWrappers (config : FormConfig) (userRole : String) (w : Wrapper)
    (h : w ∈ formWrappers config userRole) :
    ∃ f, f ∈ allFields config ∧ w = createField f userRole := by
  rw [formWrappers, List.mem_flatten] at h
  obtain ⟨lw, hlw, hwlw⟩ := h
  rw [List.mem_map] at hlw
  obtain ⟨rsec, hrsec, rfl⟩ := hlw
  obtain ⟨i, s, hs, rfl⟩ :=
    mem_renderSectionsFrom config userRole 0 (sortSections config.sections) rsec hrsec
  simp only [renderSection] at hwlw
  rw [List.mem_map] at hwlw
  obtain ⟨f, hf, rfl⟩ := hwlw
  have hsmem : s ∈ config.sections :=
    (List.perm_insertionSort sectionOrderLE config.sections).mem_iff.mp hs
  refine ⟨f, ?_, rfl⟩
  rw [allFields, List.mem_flatten]
  exact ⟨s.fields.getD [], List.mem_map_of_mem (fun s => s.fields.getD []) hsmem, hf⟩

lemma control_mem_formWrappers (config : FormConfig) (userRole : String)
    (c : Control) (h : c ∈ interactiveControls (formWrappers config userRole)) :
    ∃ f, f ∈ allFields config ∧ suppressed f userRole = false ∧ c.name = f.id := by
  rw [interactiveControls, List.mem_filterMap] at h
  obtain ⟨w, hw, hc⟩ := h
  obtain ⟨f, hf, rfl⟩ := mem_formWrappers config userRole w hw
  cases hs : suppressed f userRole with
  | true => simp [createField, hs] at hc
  | false =>
    obtain ⟨c1, hc1, -, hn, -, -⟩ := createField_control_not_suppressed f userRole hs
    rw [hc1] at hc
    obtain rfl : c1 = c := by injection hc
    exact ⟨f, hf, hs, hn⟩

/-- The names of the interactive controls of a wrapper list, in order. -/
def controlNames (ws : List Wrapper) : List String :=
  (interactiveControls ws).map Control.name

lemma control_updateWrapper (lk : String → Option Control) (w : Wrapper) :
    (updateWrapper lk w).control = w.control := by
  cases hm : w.visibleMeta with
  | none => simp [updateWrapper, hm]
  | some dp =>
    obtain ⟨dF, dV⟩ := dp
    by_cases hd : dF = ""
    · simp [updateWrapper, hm, hd]
    · cases hl : lk dF with
      | none => simp [updateWrapper, hm, hd, hl]
      | some ctrl => simp [updateWrapper, hm, hd, hl]

lemma interactiveControls_updateVisibility (ws : List Wrapper) :
    interactiveControls (updateVisibility ws) = interactiveControls ws := by
  rw [updateVisibility, interactiveControls, interactiveControls, List.filterMap_map]
  rw [show (Wrapper.control ∘ updateWrapper (fieldMapLookup ws)) = Wrapper.control from
    funext fun w => control_updateWrapper (fieldMapLookup ws) w]

lemma controlNames_editValue :
    ∀ (ws : List Wrapper) (i : Nat) (v : String),
      controlNames (editValue ws i v) = controlNames ws
  | [], _, _ => rfl
  | w :: ws, 0, v => by
    rw [editValue]
    cases hc : w.control with
    | none =>
      simp [controlNames, interactiveControls, List.filterMap_cons, setWrapperValue, hc]
    | some c =>
      simp [controlNames, interactiveControls, List.filterMap_cons, setWrapperValue, hc]
  | w :: ws, Nat.succ i, v => by
    have ih := controlNames_editValue ws i v
    rw [editValue]
    cases hc : w.control with
    | none =>
      simpa [controlNames, interactiveControls, List.filterMap_cons, hc] using ih
    | some c =>
      simpa [controlNames, interactiveControls, List.filterMap_cons, hc] using ih

lemma controlNames_userChange (ws : List Wrapper) (i : Nat) (v : String) :
    controlNames (userChange ws i v) = controlNames ws := by
  have h1 : controlNames (updateVisibility (editValue ws i v))
      = controlNames (editValue ws i v) := by
    rw [controlNames, controlNames, interactiveControls_updateVisibility]
  rw [userChange, h1]
  exact controlNames_editValue ws i v

lemma controlNames_foldl_userChange :
    ∀ (edits : List (Nat × String)) (ws : List Wrapper),
      controlNames (edits.foldl (fun ws e => userChange ws e.fst e.snd) ws)
        = controlNames ws
  | [], _ => rfl
  | e :: es, ws => by
    rw [List.foldl_cons, controlNames_foldl_userChange es _, controlNames_userChange]

lemma controlNames_runSession (config : FormConfig) (userRole : String)
    (edits : List (Nat × String)) :
    controlNames (runSession config userRole edits)
      = controlNames (formWrappers config userRole) := by
  rw [runSession, controlNames_foldl_userChange, applyVisibilityRules]
  rw [controlNames, controlNames, interactiveControls_updateVisibility]

lemma lookupKey_buildData_none (es : List (String × String)) (k : String)
    (h : ∀ p ∈ es, ¬ p.fst = k) : lookupKey (buildData es) k = none := by
  rw [lookupKey_buildData]
  have hf : es.reverse.find? (fun p => p.fst == k) = none := by
    rw [List.find?_eq_none]
    intro p hp
    simp [h p (List.mem_reverse.mp hp)]
  rw [hf]
  rfl

/-- C7: a field whose permissions exclude the active role renders as a
placeholder carrying the suppressed marker with no contained control, and —
field ids being unique across the form — no submission snapshot taken after
any sequence of user edits contains an entry for that field's id. -/
theorem suppressed_field_absent_from_snapshot (config : FormConfig)
    (userRole : String) (f : FieldSpec)
    (hf : f ∈ allFields config)
    (hsup : suppressed f userRole = true)
    (hnd : ((allFields config).map FieldSpec.id).Nodup) :
    (createField f userRole).permissionHidden = true
    ∧ (createField f userRole).control = none
    ∧ ∀ edits : List (Nat × String),
        lookupKey (buildData (formEntries (runSession config userRole edits))) f.id
          = none := by
  refine ⟨by simp [createField, hsup], by simp [createField, hsup], ?_⟩
  intro edits
  apply lookupKey_buildData_none
  intro p hp
  rw [formEntries, List.mem_map] at hp
  obtain ⟨c, hc, rfl⟩ := hp
  intro hname
  have hname1 : c.name = f.id := hname
  have hmem : c.name ∈ controlNames (runSession config userRole edits) :=
    List.mem_map_of_mem Control.name hc
  rw [controlNames_runSession, controlNames, List.mem_map] at hmem
  obtain ⟨c0, hc0, hcn⟩ := hmem
  obtain ⟨g, hg, hgsup, hgname⟩ := control_mem_formWrappers config userRole c0 hc0
  have hgid : g.id = f.id := by rw [← hgname, hcn, hname1]
  have hgf : g = f := List.inj_on_of_nodup_map hnd hg hf hgid
  rw [hgf] at hgsup
  exact absurd (hsup.symm.trans hgsup) (by simp)

/-- Concrete inputs for the C7 witness: an admin-only field next to an
ordinary select, viewed under role `"user"`. -/
def adminOnlyField : FieldSpec :=
  { id := "a", label := "A", permissions := some { roles := some ["admin"] } }

def adminConfig : FormConfig :=
  { title := "T",
    sections := [{ label := "S", fields := some [adminOnlyField, witnessControllerField] }] }

theorem suppressed_field_absent_from_snapshot_witness :
    (createField adminOnlyField "user").permissionHidden = true
    ∧ (createField adminOnlyField "user").control = none
    ∧ ∀ edits : List (Nat × String),
        lookupKey (buildData (formEntries (runSession adminConfig "user" edits)))
            adminOnlyField.id
          = none :=
  suppressed_field_absent_from_snapshot adminConfig "user" adminOnlyField
    (by decide) (by decide) (by decide)

/-! ## C8: heading text -/

lemma getElem?_renderSectionsFrom (config : FormConfig) (userRole : String) :
    ∀ (n i : Nat) (l : List Section),
      (renderSectionsFrom config userRole n l)[i]?
        = l[i]?.map (fun s => renderSection config userRole (n + i) s)
  | _, _, [] => by rw [renderSectionsFrom]; simp
  | _, 0, s :: _ => by rw [renderSectionsFrom]; simp
  | n, Nat.succ i, s :: rest => by
    rw [renderSectionsFrom, List.getElem?_cons_succ, List.getElem?_cons_succ,
      getElem?_renderSectionsFrom config userRole (n + 1) i rest]
    have harith : n + 1 + i = n + (i + 1) := by omega
    rw [harith]

/-- C8: the heading of the section at (0-based) sorted position `i` is
exactly `"{i+1}. {label}"` when `layout.showSectionNumbers` is true, and
exactly `label` otherwise — in particular whenever `layout` is absent. -/
theorem section_heading_text (config : FormConfig) (userRole : String)
    (i : Nat) (s : Section)
    (hs : (sortSections config.sections)[i]? = some s) :
    ((renderSections config userRole)[i]?).map RenderedSection.heading
      = some (if showNumbers config then toString (i + 1) ++ ". " ++ s.label
              else s.label)
    ∧ (config.layout = none →
        ((renderSections config userRole)[i]?).map RenderedSection.heading
          = some s.label) := by
  have h1 : (renderSections config userRole)[i]?
      = some (renderSection config userRole (0 + i) s) := by
    rw [renderSections, getElem?_renderSectionsFrom, hs, Option.map_some']
  have h0 : (0 : Nat) + i = i := by omega
  rw [h0] at h1
  constructor
  · rw [h1, Option.map_some']
    rfl
  · intro hl
    rw [h1, Option.map_some']
    have hsn : showNumbers config = false := by simp [showNumbers, hl]
    simp [renderSection, sectionHeading, hsn]

/-- Concrete inputs for the C8 witness: two sections listed out of order,
with numbered headings switched on. -/
def sectionOne : Section := { label := "one", order := some 1 }

def sectionTwo : Section := { label := "two", order := some 2 }

def numberedConfig : FormConfig :=
  { title := "T",
    layout := some { showSectionNumbers := true },
    sections := [sectionTwo, sectionOne] }

theorem section_heading_text_witness :
    ((renderSections numberedConfig "user")[0]?).map RenderedSection.heading
      = some (if showNumbers numberedConfig then
                toString (0 + 1) ++ ". " ++ sectionOne.label
              else sectionOne.label)
    ∧ (numberedConfig.layout = none →
        ((renderSections numberedConfig "user")[0]?).map RenderedSection.heading
          = some sectionOne.label) :=
  section_heading_text numberedConfig "user" 0 sectionOne (by decide)

/-! ## C9: failed configuration fetch -/

/-- C9: when the configuration response is not ok, the handler logs the
failure and aborts: the resulting page has an untouched (empty) metadata
region, no rendered form — none of the rendering pipeline ran — and no
user-facing error message, only the console error entry. -/
theorem failed_fetch_aborts_silently (resp : Response) (lang userRole : String)
    (h : resp.ok = false) :
    onDOMContentLoaded resp lang userRole
      = { metaChildren := [], form := none,
          log := [LogEntry.error ("Failed to load config " ++ resp.statusText)] } := by
  have hl : loadConfig resp lang
      = (none, [LogEntry.error ("Failed to load config " ++ resp.statusText)]) := by
    rw [loadConfig, if_neg (by simp [h])]
  simp [onDOMContentLoaded, hl, emptyPage]

def failedResponse : Response :=
  { ok := false, statusText := "Not Found", body := { title := "T", sections := [] } }

theorem failed_fetch_aborts_silently_witness :
    onDOMContentLoaded failedResponse "en" "user"
      = { metaChildren := [], form := none,
          log := [LogEntry.error ("Failed to load config " ++ failedResponse.statusText)] } :=
  failed_fetch_aborts_silently failedResponse "en" "user" rfl

/-! ## C10: dependents of a suppressed controller -/

lemma setWrapperValue_display_meta (w : Wrapper) (v : String) :
    (setWrapperValue w v).display = w.display
    ∧ (setWrapperValue w v).visibleMeta = w.visibleMeta := by
  cases hc : w.control with
  | none => simp [setWrapperValue, hc]
  | some c => simp [setWrapperValue, hc]

lemma getElem?_editValue_display_meta :
    ∀ (ws : List Wrapper) (i j : Nat) (v : String),
      ((editValue ws i v)[j]?).map Wrapper.display = (ws[j]?).map Wrapper.display
      ∧ ((editValue ws i v)[j]?).map Wrapper.visibleMeta
        = (ws[j]?).map Wrapper.visibleMeta
  | [], _, _, _ => by simp [editValue]
  | w :: ws, 0, 0, v => by
    rw [editValue]
    constructor
    · simp only [List.getElem?_cons_zero, Option.map_some',
        (setWrapperValue_display_meta w v).1]
    · simp only [List.getElem?_cons_zero, Option.map_some',
        (setWrapperValue_display_meta w v).2]
  | w :: ws, 0, Nat.succ j, v => by
    rw [editValue]
    simp only [List.getElem?_cons_succ]
    exact ⟨by trivial, by trivial⟩
  | w :: ws, Nat.succ i, 0, v => by
    rw [editValue]
    simp only [List.getElem?_cons_zero, Option.map_some']
    exact ⟨by trivial, by trivial⟩
  | w :: ws, Nat.succ i, Nat.succ j, v => by
    rw [editValue]
    simp only [List.getElem?_cons_succ]
    exact getElem?_editValue_display_meta ws i j v

lemma lastNamed_foldl_none (nm : String) :
    ∀ (cs : List Control) (acc : Option Control), (∀ c ∈ cs, ¬ c.name = nm) →
      cs.foldl (fun acc c => if c.name = nm then some c else acc) acc = acc
  | [], _, _ => rfl
  | c :: cs, acc, h => by
    rw [List.foldl_cons, if_neg (h c (List.mem_cons_self c cs))]
    exact lastNamed_foldl_none nm cs acc (fun c1 hc1 => h c1 (List.mem_cons_of_mem c hc1))

lemma fieldMapLookup_eq_none (ws : List Wrapper) (nm : String)
    (h : nm ∉ controlNames ws) : fieldMapLookup ws nm = none := by
  rw [fieldMapLookup, lastNamed]
  apply lastNamed_foldl_none
  intro c hc hcn
  exact h (hcn ▸ List.mem_map_of_mem Control.name hc)

lemma lastNamed_foldl_eq_none (nm : String) :
    ∀ (cs : List Control) (acc : Option Control),
      cs.foldl (fun acc c => if c.name = nm then some c else acc) acc = none →
      acc = none ∧ ∀ c ∈ cs, ¬ c.name = nm
  | [], _, h => ⟨h, by simp⟩
  | c :: cs, acc, h => by
    rw [List.foldl_cons] at h
    obtain ⟨h1, h2⟩ := lastNamed_foldl_eq_none nm cs _ h
    by_cases hcn : c.name = nm
    · rw [if_pos hcn] at h1
      exact absurd h1 (by simp)
    · rw [if_neg hcn] at h1
      refine ⟨h1, ?_⟩
      intro c1 hc1
      rcases List.mem_cons.mp hc1 with rfl | hmem
      · exact hcn
      · exact h2 c1 hmem

lemma not_mem_controlNames_of_fieldMapLookup_none (ws : List Wrapper)
    (nm : String) (h : fieldMapLookup ws nm = none) : nm ∉ controlNames ws := by
  rw [fieldMapLookup, lastNamed] at h
  obtain ⟨-, h2⟩ := lastNamed_foldl_eq_none nm (interactiveControls ws) none h
  intro hmem
  rw [controlNames, List.mem_map] at hmem
  obtain ⟨c, hc, hcn⟩ := hmem
  exact h2 c hc hcn

lemma mem_of_getElemOpt {α : Type} {l : List α} {j : Nat} {a : α}
    (h : l[j]? = some a) : a ∈ l := by
  obtain ⟨hlt, hget⟩ := List.getElem?_eq_some.mp h
  exact hget ▸ List.getElem_mem hlt

lemma getElem?_updateVisibility_missing (ws : List Wrapper) (j : Nat)
    (w : Wrapper) (cid t1 : String)
    (hw : ws[j]? = some w) (hm : w.visibleMeta = some (cid, t1))
    (hl : fieldMapLookup ws cid = none) :
    (updateVisibility ws)[j]? = some w := by
  rw [getElem?_updateVisibility, hw, Option.map_some',
    updateWrapper_skipped (fieldMapLookup ws) w cid t1 hm hl]

lemma foldl_userChange_missing_controller (cid t1 : String)
    (names0 : List String) (hcid : cid ∉ names0) :
    ∀ (edits : List (Nat × String)) (ws : List Wrapper) (j : Nat) (w : Wrapper),
      controlNames ws = names0 →
      ws[j]? = some w → w.visibleMeta = some (cid, t1) → w.display = "" →
      ∃ w1, (edits.foldl (fun ws e => userChange ws e.fst e.snd) ws)[j]? = some w1
        ∧ w1.visibleMeta = some (cid, t1) ∧ w1.display = ""
  | [], ws, j, w, _, hw, hm, hd => ⟨w, hw, hm, hd⟩
  | e :: es, ws, j, w, hnames, hw, hm, hd => by
    rw [List.foldl_cons]
    obtain ⟨hd1, hm1⟩ := getElem?_editValue_display_meta ws e.fst j e.snd
    rw [hw, Option.map_some'] at hd1 hm1
    cases hE : (editValue ws e.fst e.snd)[j]? with
    | none =>
      rw [hE] at hd1
      simp at hd1
    | some wE =>
      rw [hE, Option.map_some'] at hd1 hm1
      have hdE : wE.display = "" := by
        rw [Option.some_inj.mp hd1, hd]
      have hmE : wE.visibleMeta = some (cid, t1) := by
        rw [Option.some_inj.mp hm1, hm]
      have hnamesE : controlNames (editValue ws e.fst e.snd) = names0 := by
        rw [controlNames_editValue, hnames]
      have hlE : fieldMapLookup (editValue ws e.fst e.snd) cid = none :=
        fieldMapLookup_eq_none _ cid (hnamesE ▸ hcid)
      have hstep : (userChange ws e.fst e.snd)[j]? = some wE := by
        rw [userChange]
        exact getElem?_updateVisibility_missing _ j wE cid t1 hE hmE hlE
      have hnames1 : controlNames (userChange ws e.fst e.snd) = names0 := by
        rw [controlNames_userChange, hnames]
      exact foldl_userChange_missing_controller cid t1 names0 hcid es
        (userChange ws e.fst e.snd) j wE hnames1 hstep hmE hdE

/-- C10: the visibility engine never touches a dependent field whose recorded
controller id resolves to no interactive control: at mount and at every
change notification the wrapper is left entirely unchanged (so it keeps its
initial visible display), a permission-suppressed field's controller id is
absent from the field map whenever every field carrying that id is
suppressed, every wrapper `createField` builds starts visible, a suppressed
field that itself has `visibleIf` carries no visibility metadata, and
metadata-free wrappers are never toggled. -/
theorem missing_controller_dependent_untouched (ws : List Wrapper) (i : Nat)
    (w : Wrapper) (c t : String)
    (hw : ws[i]? = some w)
    (hm : w.visibleMeta = some (c, t))
    (hl : fieldMapLookup ws c = none) :
    (updateVisibility ws)[i]? = some w
    ∧ (applyVisibilityRules ws)[i]? = some w
    ∧ (∀ f : FieldSpec, ∀ userRole : String, suppressed f userRole = true →
        (createField f userRole).visibleMeta = none)
    ∧ (∀ f : FieldSpec, ∀ userRole : String, (createField f userRole).display = "")
    ∧ (∀ ws1 : List Wrapper, ∀ j : Nat, ∀ w1 : Wrapper, ws1[j]? = some w1 →
        w1.visibleMeta = none → (updateVisibility ws1)[j]? = some w1)
    ∧ (∀ config : FormConfig, ∀ userRole cid : String,
        (∀ g, g ∈ allFields config → g.id = cid → suppressed g userRole = true) →
        fieldMapLookup (formWrappers config userRole) cid = none)
    ∧ (∀ config : FormConfig, ∀ userRole cid t1 : String, ∀ j : Nat, ∀ w1 : Wrapper,
        (formWrappers config userRole)[j]? = some w1 →
        w1.visibleMeta = some (cid, t1) →
        fieldMapLookup (formWrappers config userRole) cid = none →
        ∀ edits : List (Nat × String),
          ∃ w2, (runSession config userRole edits)[j]? = some w2
            ∧ w2.visibleMeta = some (cid, t1)
            ∧ w2.display = w1.display) := by
  refine ⟨getElem?_updateVisibility_missing ws i w c t hw hm hl,
    getElem?_updateVisibility_missing ws i w c t hw hm hl, ?_, ?_, ?_, ?_, ?_⟩
  · intro f userRole hs
    simp [createField, hs]
  · intro f userRole
    cases hs : suppressed f userRole with
    | true => simp [createField, hs]
    | false => simp [createField, hs]
  · intro ws1 j w1 hw1 hm1
    rw [getElem?_updateVisibility, hw1, Option.map_some',
      updateWrapper_no_meta (fieldMapLookup ws1) w1 hm1]
  · intro config userRole cid hall
    apply fieldMapLookup_eq_none
    intro hmem
    rw [controlNames, List.mem_map] at hmem
    obtain ⟨c0, hc0, hcn⟩ := hmem
    obtain ⟨g, hg, hgsup, hgname⟩ := control_mem_formWrappers config userRole c0 hc0
    have hgid : g.id = cid := by rw [← hgname, hcn]
    rw [hall g hg hgid] at hgsup
    exact absurd hgsup (by simp)
  · intro config userRole cid t1 j w1 hw1 hm1 hl1 edits
    have hdw1 : w1.display = "" := by
      obtain ⟨f, hfmem, rfl⟩ := mem_formWrappers config userRole w1
        (mem_of_getElemOpt hw1)
      cases hs : suppressed f userRole with
      | true => simp [createField, hs]
      | false => simp [createField, hs]
    have hcid : cid ∉ controlNames (formWrappers config userRole) :=
      not_mem_controlNames_of_fieldMapLookup_none _ cid hl1
    -- mount: the initial visibility pass leaves the wrapper unchanged
    have hmount : (applyVisibilityRules (formWrappers config userRole))[j]? = some w1 :=
      getElem?_updateVisibility_missing _ j w1 cid t1 hw1 hm1 hl1
    have hnames : controlNames (applyVisibilityRules (formWrappers config userRole))
        = controlNames (formWrappers config userRole) := by
      rw [applyVisibilityRules, controlNames, controlNames,
        interactiveControls_updateVisibility]
    obtain ⟨w2, hw2, hm2, hd2⟩ := foldl_userChange_missing_controller cid t1
      (controlNames (formWrappers config userRole)) hcid edits
      (applyVisibilityRules (formWrappers config userRole)) j w1 hnames hmount hm1 hdw1
    rw [runSession]
    exact ⟨w2, hw2, hm2, by rw [hd2, hdw1]⟩

/-- Concrete inputs for the C10 witness: a dependent field whose controller
is the admin-only field `"a"`, rendered under role `"user"`. -/
def dependentOnSuppressed : FieldSpec :=
  { id := "d2", label := "D2", visibleIf := some { field := "a", equals := "y" } }

def suppressedControllerConfig : FormConfig :=
  { title := "T",
    sections := [{ label := "S", fields := some [adminOnlyField, dependentOnSuppressed] }] }

theorem missing_controller_dependent_untouched_witness :
    (updateVisibility (formWrappers suppressedControllerConfig "user"))[1]?
      = some (createField dependentOnSuppressed "user")
    ∧ (applyVisibilityRules (formWrappers suppressedControllerConfig "user"))[1]?
      = some (createField dependentOnSuppressed "user")
    ∧ (∀ f : FieldSpec, ∀ userRole : String, suppressed f userRole = true →
        (createField f userRole).visibleMeta = none)
    ∧ (∀ f : FieldSpec, ∀ userRole : String, (createField f userRole).display = "")
    ∧ (∀ ws1 : List Wrapper, ∀ j : Nat, ∀ w1 : Wrapper, ws1[j]? = some w1 →
        w1.visibleMeta = none → (updateVisibility ws1)[j]? = some w1)
    ∧ (∀ config : FormConfig, ∀ userRole cid : String,
        (∀ g, g ∈ allFields config → g.id = cid → suppressed g userRole = true) →
        fieldMapLookup (formWrappers config userRole) cid = none)
    ∧ (∀ config : FormConfig, ∀ userRole cid t1 : String, ∀ j : Nat, ∀ w1 : Wrapper,
        (formWrappers config userRole)[j]? = some w1 →
        w1.visibleMeta = some (cid, t1) →
        fieldMapLookup (formWrappers config userRole) cid = none →
        ∀ edits : List (Nat × String),
          ∃ w2, (runSession config userRole edits)[j]? = some w2
            ∧ w2.visibleMeta = some (cid, t1)
            ∧ w2.display = w1.display) :=
  missing_controller_dependent_untouched
    (formWrappers suppressedControllerConfig "user") 1
    (createField dependentOnSuppressed "user") "a" "y"
    (by decide) (by decide) (by decide)

theorem sections_sorted_stably_one_heading_each_witness :
    List.Sorted sectionOrderLE (sortSections numberedConfig.sections)
    ∧ (∀ k : Int, (sortSections numberedConfig.sections).filter (fun u => orderKey u == k)
        = numberedConfig.sections.filter (fun u => orderKey u == k))
    ∧ (renderSections numberedConfig "user").length = numberedConfig.sections.length :=
  sections_sorted_stably_one_heading_each numberedConfig "user"

end FormRenderer
